import Mathlib

/-!
Verification of the genetic-algorithm engine in `src/ga.h` (namespace `ga`).

The C++ engine is generic (CRTP) over a nucleotide type, a scorer type and a
random engine.  The embedding mirrors this genericity with type parameters:

* `α` — the nucleotide type; the nucleotide-level contract of `ga::Nucl`
  (random generation, in-place crossover, in-place mutation) is passed as
  explicit function parameters `nrand`, `ncross`, `nmut`.
* `σ` — the scorer type; the engine only ever reads its `score` field, which
  we model by a projection `sc : σ → ℚ` (the C++ `float` ordered field is
  modelled by `ℚ`).
* `ρ` — the random-engine state; every randomness-consuming C++ call
  `distr(rng)` is modelled by an explicit state-passing draw
  `nextNat : ρ → Nat × ρ`, and each `std::shuffle` call by an oracle
  `List Nat → ρ → List Nat × ρ` whose first component is required (as a
  hypothesis where it matters) to be a permutation of the shuffled segment,
  which is exactly the guarantee `std::shuffle` provides.

C++ `std::vector` becomes `List`; in-place writes become functional updates;
out-of-bounds vector indexing, which is undefined behaviour, is modelled by
`List.getD` with an explicitly passed default where the engine's preconditions
make the default unreachable, and by `Option` for `Genom::mutate`, whose
index precondition is the subject of one of the safety claims.
-/

/-- The `ga::Genom<N, S>` (src/ga.h:56-202): an ordered sequence of nucleotides
plus one attached scorer. -/
structure Genom (α σ : Type) where
  nucleotides : List α
  scorer : σ
  deriving DecidableEq

/-- The loop body of `Genom::random` (src/ga.h:72-82): draw `n` nucleotides in
sequence, threading the random-engine state through the draws in program
order (first list element drawn first). -/
def randNucs (nrand : ρ → α × ρ) : Nat → ρ → List α × ρ
  | 0, r => ([], r)
  | Nat.succ n, r =>
    let p := nrand r
    let q := randNucs nrand n p.2
    (p.1 :: q.1, q.2)

/-- The `Genom::random(n, rng)` (src/ga.h:72-82): a length-`n` sequence of random
nucleotides and a default-constructed scorer `defS` (the C++ `Genom g;`
default-constructs the `S scorer;` member). -/
def Genom.random (nrand : ρ → α × ρ) (defS : σ) (n : Nat) (r : ρ) :
    Genom α σ × ρ :=
  let p := randNucs nrand n r
  ({ nucleotides := p.1, scorer := defS }, p.2)

/-- The nucleotide writes of `Genom::crossover_inplace` (src/ga.h:97-108):
after `c->nucleotides.resize(a.nucleotides.size())` the result has exactly
`a.nucleotides.length` slots; slot `i` receives
`Nucl::crossover_inplace(a[i], b[i])` for `i < n` and
`Nucl::crossover_inplace(b[i], a[i])` (swapped argument order) for
`n ≤ i < a.size()`.  Reads are modelled with `getD dflt`; the engine's
precondition `n ≤ len a = len b` keeps the default unreachable. -/
def crossoverNucs (ncross : α → α → α) (dflt : α) (as bs : List α) (n : Nat) :
    List α :=
  (List.range as.length).map fun i =>
    if i < n then ncross (as.getD i dflt) (bs.getD i dflt)
    else ncross (bs.getD i dflt) (as.getD i dflt)

/-- The `Genom::crossover_inplace(a, b, c, n)` (src/ga.h:97-108): overwrites the
nucleotides of the out-parameter `c`; the scorer of `c` is left untouched by
the C++ code, which only writes `c->nucleotides`. -/
def Genom.crossover_inplace (ncross : α → α → α) (dflt : α)
    (a b c : Genom α σ) (n : Nat) : Genom α σ :=
  { c with nucleotides := crossoverNucs ncross dflt a.nucleotides b.nucleotides n }

/-- The `Genom::mutate(n, rng)` (src/ga.h:118-122): `nucleotides[n].mutate(rng)`
mutates the nucleotide at index `n` in place.  `nucleotides[n]` with
`n ≥ len` is an out-of-bounds vector access (undefined behaviour), modelled
as `none`. -/
def Genom.mutate (nmut : α → ρ → α × ρ) (g : Genom α σ) (n : Nat) (r : ρ) :
    Option (Genom α σ × ρ) :=
  if h : n < g.nucleotides.length then
    let p := nmut (g.nucleotides.get ⟨n, h⟩) r
    some ({ g with nucleotides := g.nucleotides.set n p.1 }, p.2)
  else none

/-- The `Genom::shift(n)` (src/ga.h:132-135):
`std::rotate(begin, begin + n, end)` rotates the nucleotides left by `n`
places (valid for `n ≤ len`, which is what `std::rotate` requires); its
postcondition is exactly `drop n ++ take n`.  The scorer is untouched. -/
def Genom.shift (g : Genom α σ) (n : Nat) : Genom α σ :=
  { g with nucleotides := g.nucleotides.drop n ++ g.nucleotides.take n }

/-- The `Genom::size` (src/ga.h:146-149). -/
def Genom.size (g : Genom α σ) : Nat := g.nucleotides.length

/-- The `Genom::set_scorer` (src/ga.h:168-171). -/
def Genom.set_scorer (g : Genom α σ) (s : σ) : Genom α σ := { g with scorer := s }

/-- The `Genom::get_scorer` (src/ga.h:180). -/
def Genom.get_scorer (g : Genom α σ) : σ := g.scorer

/-- The `Genom::score` (src/ga.h:189): `scorer.score`, the scorer's numeric
fitness field, modelled by the projection `sc`. -/
def Genom.score (sc : σ → ℚ) (g : Genom α σ) : ℚ := sc g.scorer

/-- The `ga::GenePool<N, S, R>` (src/ga.h:204-308): the population plus all
per-generation scratch state.  Field order follows the C++ declaration order
(src/ga.h:296-307). -/
structure GenePool (α σ ρ : Type) where
  n_genoms : Nat
  take : Nat
  retain : Nat
  genoms : List (Genom α σ)
  rng : ρ
  distr_hi : Nat
  generation : Nat
  shuffle_indices : List Nat
  next_generation : List (Genom α σ)
  deriving DecidableEq

/-- The process environment at construction time: wall-clock and hardware
entropy that a time- or `std::random_device`-seeded constructor would read.
The constructor (src/ga.h:208-222) never touches either source, which is the
substance of the determinism claim about it. -/
structure Environment where
  wallClock : Nat
  hardwareEntropy : Nat
  deriving DecidableEq

/-- The `std::default_random_engine{}()` (src/ga.h:211): the first output of a
default-constructed default random engine.  It is a fixed constant — for
libstdc++ the engine is `minstd_rand0` with default seed `1`, whose first
output is `16807 * 1 mod (2^31 - 1) = 16807`.  The development only relies
on it being a constant of the program, not on the particular value. -/
def defaultEngineFirstOutput : Nat := 16807

/-- The `size_t` cast of a product `n * (num / den)` of a `size_t` by a
nonnegative fraction, as in `take(genoms_count * take_value)`
(src/ga.h:211): the C++ float-to-integer conversion truncates toward zero,
which `Int.tdiv` does; the product is taken on the exact rational value
`num / den`. -/
def truncProd (n : Nat) (num : Int) (den : Nat) : Nat :=
  (((n : Int) * num).tdiv (den : Int)).toNat

/-- The constructor loop (src/ga.h:213-215): push `count` random Genoms of
length `genom_len`, threading the random engine through the draws. -/
def genomsInit (nrand : ρ → α × ρ) (defS : σ) (genom_len : Nat) :
    Nat → ρ → List (Genom α σ) × ρ
  | 0, r => ([], r)
  | Nat.succ k, r =>
    let p := Genom.random nrand defS genom_len r
    let q := genomsInit nrand defS genom_len k p.2
    (p.1 :: q.1, q.2)

/-- The `GenePool::GenePool(genoms_count, genom_len, take_value)`
(src/ga.h:208-222).  `initRng` models the seed constructor of the random
engine type `R`; the engine member is initialised with the constant
`defaultEngineFirstOutput` as seed (src/ga.h:211), and the `env` argument —
the ambient entropy a seeding-from-the-environment implementation would
consult — is never read.  `take = genoms_count * take_value` and
`retain = genoms_count * (0.5 - take_value)` truncate the products toward
zero as the C++ float-to-`size_t` conversion does, computed on the exact
rational `take_value = num / den` (so `0.5 - take_value` is exactly
`(den - 2 * num) / (2 * den)`);
`distr(0, genom_len)` records its inclusive upper bound in `distr_hi`;
`shuffle_indices` starts as the identity permutation and `next_generation`
starts empty (reserved capacity only). -/
def GenePool.construct (nrand : ρ → α × ρ) (defS : σ) (initRng : Nat → ρ)
    (env : Environment) (genoms_count genom_len : Nat) (take_value : ℚ) :
    GenePool α σ ρ :=
  let r0 := initRng defaultEngineFirstOutput
  let p := genomsInit nrand defS genom_len genoms_count r0
  { n_genoms := genoms_count
    take := truncProd genoms_count take_value.num take_value.den
    retain := truncProd genoms_count
      ((take_value.den : Int) - 2 * take_value.num) (2 * take_value.den)
    genoms := p.1
    rng := p.2
    distr_hi := genom_len
    generation := 0
    shuffle_indices := List.range genoms_count
    next_generation := [] }

/-- The comparator of `std::sort(genoms.rbegin(), genoms.rend())`
(src/ga.h:231) seen on the forward range: sorting the reversed range
ascending by `Genom::operator<` (`scorer.score < other.scorer.score`,
src/ga.h:194-197) is sorting the forward range descending by score, i.e.
with `a` before `b` exactly when `sc b ≤ sc a`. -/
def scoreGE (sc : σ → ℚ) (a b : Genom α σ) : Bool :=
  decide (sc b.scorer ≤ sc a.scorer)

/-- The `GenePool::simulate(simulator)` (src/ga.h:224-233): the simulator acts on
every Genom (modelled by an arbitrary per-Genom transformer `simFn`, which
covers any `Simul::simulate(Genom&)`), then the population is sorted
descending by score and the generation counter is incremented.  `std::sort`
produces some score-sorted permutation of the population; it is modelled by
`mergeSort` with the descending comparator. -/
def GenePool.simulate (sc : σ → ℚ) (simFn : Genom α σ → Genom α σ)
    (p : GenePool α σ ρ) : GenePool α σ ρ :=
  { p with
    genoms := (p.genoms.map simFn).mergeSort (scoreGE sc)
    generation := p.generation + 1 }

/-- The `GenePool::shift(n)` (src/ga.h:235-239): shifts every Genom, touching
neither scorers nor the generation counter. -/
def GenePool.shift (p : GenePool α σ ρ) (n : Nat) : GenePool α σ ρ :=
  { p with genoms := p.genoms.map fun g => g.shift n }

/-- The `GenePool::reset()` (src/ga.h:241-244): zeroes the generation counter
only. -/
def GenePool.reset (p : GenePool α σ ρ) : GenePool α σ ρ :=
  { p with generation := 0 }

/-- The `GenePool::generations()` (src/ga.h:280). -/
def GenePool.generations (p : GenePool α σ ρ) : Nat := p.generation

/-- The `GenePool::best()` (src/ga.h:282): `genoms[0]`; indexing an empty vector
is undefined behaviour, modelled by `Option`. -/
def GenePool.best (p : GenePool α σ ρ) : Option (Genom α σ) :=
  p.genoms.head?

/-- The `std::shuffle(idx.begin() + k, idx.end(), rng)` on the index array
(src/ga.h:248, 255, 265): the segment from position `k` on is replaced by
the shuffle's outcome `seg`.  `std::shuffle` guarantees `seg` is a
permutation of the old segment; that fact is supplied as a hypothesis
wherever a theorem needs it. -/
def shuffleTail (k : Nat) (idx seg : List Nat) : List Nat :=
  idx.take k ++ seg

/-- The duplication loop of `GenePool::select` (src/ga.h:250-251):
`for i < half, shuffle_indices[i + half] = shuffle_indices[i]`, which
overwrites positions `[half, 2*half)` with a copy of positions `[0, half)`
and leaves any position from `2*half` on unchanged. -/
def copyHalf (half : Nat) (idx : List Nat) : List Nat :=
  idx.take half ++ idx.take half ++ idx.drop (half + half)

/-- The `next_generation.resize(n_genoms)` (src/ga.h:253): truncate or pad with
default-constructed Genoms. -/
def resizeD (l : List (Genom α σ)) (n : Nat) (defG : Genom α σ) :
    List (Genom α σ) :=
  l.take n ++ List.replicate (n - l.length) defG

/-- One crossover loop of `GenePool::select` (src/ga.h:256-260 with
`off = 0`, src/ga.h:266-270 with `off = half`): for `i` from `0` while
`i < k` (called with `k = half`), draw a crossover point `distr(rng)` and
write `crossover_inplace(genoms[idx[i]], genoms[idx[i + half]],
&next_generation[off + i], draw)`. -/
def crossLoop (ncross : α → α → α) (dflt : α) (nextNat : ρ → Nat × ρ)
    (gs : List (Genom α σ)) (idx : List Nat) (half off : Nat)
    (defG : Genom α σ) :
    Nat → Nat → List (Genom α σ) → ρ → List (Genom α σ) × ρ
  | _, 0, ng, r => (ng, r)
  | i, Nat.succ k, ng, r =>
    let d := nextNat r
    let child := Genom.crossover_inplace ncross dflt
      (gs.getD (idx.getD i 0) defG) (gs.getD (idx.getD (i + half) 0) defG)
      (ng.getD (off + i) defG) d.1
    crossLoop ncross dflt nextNat gs idx half off defG
      (i + 1) k (ng.set (off + i) child) d.2

/-- The mutation loop of `GenePool::select` (src/ga.h:275-276): for every
Genom of `next_generation` in order, draw a mutation index `distr(rng)` and
call `Genom::mutate` with it; an out-of-range index makes `mutate` fail. -/
def mutLoop (nmut : α → ρ → α × ρ) (nextNat : ρ → Nat × ρ) :
    List (Genom α σ) → ρ → Option (List (Genom α σ) × ρ)
  | [], r => some ([], r)
  | g :: gs, r =>
    let d := nextNat r
    match Genom.mutate nmut g d.1 d.2 with
    | none => none
    | some q =>
      match mutLoop nmut nextNat gs q.2 with
      | none => none
      | some m => some (q.1 :: m.1, m.2)

/-- The body of `GenePool::select()` (src/ga.h:246-278), acting on the fields
the method reads: the elite count `take`, the population size `n_genoms`,
the population `gs`, the random engine `r`, the index array `idx` and the
staging buffer `ng`.  Returns the new
`(genoms, rng, shuffle_indices, next_generation)` after the final
`genoms.swap(next_generation)` (src/ga.h:277), or `none` when the mutation
loop performs an out-of-range access. -/
def selectCore (ncross : α → α → α) (dflt : α) (nmut : α → ρ → α × ρ)
    (nextNat : ρ → Nat × ρ) (defG : Genom α σ)
    (sh1 sh2 sh3 : List Nat → ρ → List Nat × ρ)
    (take n_genoms : Nat) (gs : List (Genom α σ)) (r : ρ) (idx : List Nat)
    (ng : List (Genom α σ)) :
    Option (List (Genom α σ) × ρ × List Nat × List (Genom α σ)) :=
  let s1 := sh1 (idx.drop take) r
  let idx1 := shuffleTail take idx s1.1
  let half := n_genoms / 2
  let idx2 := copyHalf half idx1
  let ng0 := resizeD ng n_genoms defG
  let s2 := sh2 (idx2.drop half) s1.2
  let idx3 := shuffleTail half idx2 s2.1
  let c1 := crossLoop ncross dflt nextNat gs idx3 half 0 defG 0 half ng0 s2.2
  let s3 := sh3 (idx3.drop half) c1.2
  let idx4 := shuffleTail half idx3 s3.1
  let c2 := crossLoop ncross dflt nextNat gs idx4 half half defG 0 half c1.1 s3.2
  match mutLoop nmut nextNat c2.1 c2.2 with
  | none => none
  | some m => some (m.1, m.2, idx4, gs)

/-- The `GenePool::select()` (src/ga.h:246-278) on the pool state. -/
def GenePool.select (ncross : α → α → α) (dflt : α) (nmut : α → ρ → α × ρ)
    (nextNat : ρ → Nat × ρ) (defG : Genom α σ)
    (sh1 sh2 sh3 : List Nat → ρ → List Nat × ρ)
    (p : GenePool α σ ρ) : Option (GenePool α σ ρ) :=
  (selectCore ncross dflt nmut nextNat defG sh1 sh2 sh3
      p.take p.n_genoms p.genoms p.rng p.shuffle_indices p.next_generation).map
    fun m =>
      { p with
        genoms := m.1
        rng := m.2.1
        shuffle_indices := m.2.2.1
        next_generation := m.2.2.2 }

/-! ## Concrete instances for closed-form runs

A nucleotide/scorer/engine instantiation with `Nat` nucleotides, `Nat`
scorers and a stream-of-draws engine, used to run the engine on explicit
inputs. -/

/-- A deterministic random engine: the state is the stream of future
`distr(rng)` outputs and a draw pops the head. -/
def streamNext (r : List Nat) : Nat × List Nat := (r.headD 0, r.tail)

/-- A shuffle outcome that leaves the segment in place — the identity
permutation, one of the outcomes `std::shuffle` can produce. -/
def shId (l : List Nat) (r : List Nat) : List Nat × List Nat := (l, r)

/-- Nucleotide mutation for `Nat` nucleotides: add one (the repository's
`IntNucl::mutate` adds a draw). -/
def nmutInc (a : Nat) (r : List Nat) : Nat × List Nat := (a + 1, r)

/-- Nucleotide crossover for `Nat` nucleotides: the average, exactly the
repository's `IntNucl::crossover_inplace`. -/
def ncrossAvg (a b : Nat) : Nat := (a + b) / 2

/-- Nucleotide random generation returning the constant 7 (consumes no
engine state). -/
def nrandConst (r : List Nat) : Nat × List Nat := (7, r)

/-- A default-constructed Genom (`Genom()`): no nucleotides, default
scorer. -/
def defG0 : Genom Nat Nat := ⟨[], 0⟩

/-- The pool constructed by `GenePool{2, 1, 0.0}`, whose engine will produce
the `distr` draws `0, 0, 1, 0` during the first `select` — each of them a
legal output of `uniform_int_distribution<size_t>(0, 1)`. -/
def poolTwo : GenePool Nat Nat (List Nat) :=
  GenePool.construct nrandConst 0 (fun _ => [0, 0, 1, 0]) ⟨0, 0⟩ 2 1 0

/-- The pool constructed by `GenePool{4, 1, 0.25}` with a random engine all
of whose `distr` draws are 0. -/
def poolFour : GenePool Nat Nat (List Nat) :=
  GenePool.construct nrandConst 0 (fun _ => []) ⟨0, 0⟩ 4 1 (Rat.mk' 1 4)

/-- Positions `0 .. t-1` of an index array hold the identity values; after
`simulate` has sorted the population descending these are exactly the
indices of the current top-`t` performers (the elite). -/
def eliteIdent (t : Nat) (idx : List Nat) : Prop :=
  ∀ e, e < t → idx.getD e 0 = e

/-- A two-member population over `Nat` nucleotides and `ℚ` scorers (state
fields as a `GenePool{2, 1, ·}` would hold them). -/
def poolPair : GenePool Nat ℚ Nat :=
  ⟨2, 0, 0, [⟨[0], Rat.mk' 0 1⟩, ⟨[1], Rat.mk' 0 1⟩], 0, 1, 0, [0, 1], []⟩

/-- A simulator in the sense of the `Simul` collaborator (src/ga.h:229):
assigns to each Genom a score one more than its first nucleotide (like the
test simulator, higher is better). -/
def simPair (g : Genom Nat ℚ) : Genom Nat ℚ :=
  g.set_scorer ((g.nucleotides.getD 0 0 : ℚ) + 1)

/-! ## Helper lemmas -/

theorem randNucs_length (nrand : ρ → α × ρ) :
    ∀ (n : Nat) (r : ρ), ((randNucs nrand n r).1).length = n
  | 0, _ => rfl
  | Nat.succ n, r => by
    simp [randNucs, randNucs_length nrand n]

theorem crossoverNucs_length (ncross : α → α → α) (dflt : α)
    (as bs : List α) (n : Nat) :
    (crossoverNucs ncross dflt as bs n).length = as.length := by
  simp [crossoverNucs]

theorem shift_nucleotides_eq_rotate (g : Genom α σ) (n : Nat)
    (hn : n ≤ g.nucleotides.length) :
    (g.shift n).nucleotides = g.nucleotides.rotate n := by
  show g.nucleotides.drop n ++ g.nucleotides.take n = _
  rw [List.rotate_eq_drop_append_take hn]

theorem shift_one_iterate (g : Genom α σ) (h1 : 1 ≤ g.nucleotides.length) :
    ∀ k, (fun x : Genom α σ => x.shift 1)^[k] g =
      { g with nucleotides := g.nucleotides.rotate k }
  | 0 => by simp
  | Nat.succ k => by
    rw [Function.iterate_succ_apply', shift_one_iterate g h1 k]
    have h1' : 1 ≤ (g.nucleotides.rotate k).length := by
      rwa [List.length_rotate]
    show ({ g with nucleotides := g.nucleotides.rotate k } : Genom α σ).shift 1 =
      { g with nucleotides := g.nucleotides.rotate (k + 1) }
    rw [Genom.shift]
    congr 1
    rw [← List.rotate_eq_drop_append_take h1', List.rotate_rotate]

/-! ## C5 — length invariant -/

/-- C5: every Genom produced by `Genom::random(n, rng)` has exactly `n`
nucleotides; `Genom::crossover_inplace` with equal-length parents produces a
child of the parents' length; `Genom::mutate` with an in-range index (the
case in which it succeeds) never changes the length. -/
theorem genom_length_invariant (nrand : ρ → α × ρ) (defS : σ)
    (ncross : α → α → α) (dflt : α) (nmut : α → ρ → α × ρ) :
    (∀ (n : Nat) (r : ρ),
      ((Genom.random (σ := σ) nrand defS n r).1).nucleotides.length = n)
  ∧ (∀ (a b c : Genom α σ) (n : Nat),
      a.nucleotides.length = b.nucleotides.length →
      (Genom.crossover_inplace ncross dflt a b c n).nucleotides.length =
        a.nucleotides.length)
  ∧ (∀ (g g' : Genom α σ) (n : Nat) (r r' : ρ),
      Genom.mutate nmut g n r = some (g', r') →
      g'.nucleotides.length = g.nucleotides.length) := by
  refine ⟨fun n r => randNucs_length nrand n r, fun a b c n _ => ?_,
    fun g g' n r r' hm => ?_⟩
  · exact crossoverNucs_length ncross dflt a.nucleotides b.nucleotides n
  · rw [Genom.mutate] at hm
    split at hm
    · simp only [Option.some.injEq, Prod.mk.injEq] at hm
      rw [← hm.1]
      exact List.length_set ..
    · exact absurd hm (by simp)

/-- C5 witness: concrete length computations at `n = 3`, parents of length
2, and a mutation at index 1 of a length-2 Genom. -/
theorem genom_length_invariant_witness :
    ((Genom.random (σ := Nat) (fun r : Nat => (r, r + 1)) 0 3 0).1).nucleotides.length = 3
  ∧ (Genom.crossover_inplace (fun a b => a + b) 0
      ⟨[1, 2], 0⟩ ⟨[3, 4], 0⟩ ⟨[], 0⟩ 1).nucleotides.length =
      (⟨[1, 2], 0⟩ : Genom Nat Nat).nucleotides.length
  ∧ (⟨[5, 6], 0⟩ : Genom Nat Nat).nucleotides.length =
      (⟨[5, 6], 0⟩ : Genom Nat Nat).nucleotides.length := by
  have h := genom_length_invariant (σ := Nat) (fun r : Nat => (r, r + 1)) 0
    (fun a b => a + b) 0 (fun a r => (a + 1, r))
  refine ⟨h.1 3 0, h.2.1 ⟨[1, 2], 0⟩ ⟨[3, 4], 0⟩ ⟨[], 0⟩ 1 (by decide), ?_⟩
  exact h.2.2 ⟨[5, 6], 0⟩ ⟨[5, 7], 0⟩ 1 0 0 (by decide) ▸ rfl

/-! ## C6 — crossover semantics -/

/-- C6: for equal-length parents and a crossover point `n ≤ len`,
`Genom::crossover_inplace(a, b, out, n)` writes the nucleotide-level
crossover of `(a[i], b[i])` at every `i < n` and of `(b[i], a[i])` —
arguments swapped — at every `i` in `[n, len)`, and leaves `out` with
length `len`. -/
theorem crossover_pointwise (ncross : α → α → α) (dflt : α)
    (a b c : Genom α σ) (n : Nat)
    (hlen : a.nucleotides.length = b.nucleotides.length)
    (hn : n ≤ a.nucleotides.length) :
    (Genom.crossover_inplace ncross dflt a b c n).nucleotides.length =
      a.nucleotides.length
  ∧ ∀ i, i < a.nucleotides.length →
      (Genom.crossover_inplace ncross dflt a b c n).nucleotides.getD i dflt =
        if i < n then
          ncross (a.nucleotides.getD i dflt) (b.nucleotides.getD i dflt)
        else
          ncross (b.nucleotides.getD i dflt) (a.nucleotides.getD i dflt) := by
  refine ⟨crossoverNucs_length ncross dflt a.nucleotides b.nucleotides n,
    fun i hi => ?_⟩
  show (crossoverNucs ncross dflt a.nucleotides b.nucleotides n).getD i dflt = _
  have hi' : i < (crossoverNucs ncross dflt a.nucleotides b.nucleotides n).length := by
    rwa [crossoverNucs_length]
  rw [List.getD_eq_getElem _ _ hi']
  simp only [crossoverNucs, List.getElem_map, List.getElem_range]

/-- C6 witness: parents `[1, 2, 3]` and `[10, 20, 30]`, point `2`,
nucleotide crossover `(a + b) / 2` as in the repository's test encoding;
instantiated at the in-point index `1` and the swapped-order index `2`. -/
theorem crossover_pointwise_witness :
    (Genom.crossover_inplace (fun a b => (a + b) / 2) 0
        (⟨[1, 2, 3], 0⟩ : Genom Nat Nat) ⟨[10, 20, 30], 0⟩ ⟨[], 0⟩
        2).nucleotides.length =
      (⟨[1, 2, 3], 0⟩ : Genom Nat Nat).nucleotides.length
  ∧ (Genom.crossover_inplace (fun a b => (a + b) / 2) 0
        (⟨[1, 2, 3], 0⟩ : Genom Nat Nat) ⟨[10, 20, 30], 0⟩ ⟨[], 0⟩
        2).nucleotides.getD 1 0 =
      (if 1 < 2 then
        ((⟨[1, 2, 3], 0⟩ : Genom Nat Nat).nucleotides.getD 1 0 +
          (⟨[10, 20, 30], 0⟩ : Genom Nat Nat).nucleotides.getD 1 0) / 2
      else
        ((⟨[10, 20, 30], 0⟩ : Genom Nat Nat).nucleotides.getD 1 0 +
          (⟨[1, 2, 3], 0⟩ : Genom Nat Nat).nucleotides.getD 1 0) / 2)
  ∧ (Genom.crossover_inplace (fun a b => (a + b) / 2) 0
        (⟨[1, 2, 3], 0⟩ : Genom Nat Nat) ⟨[10, 20, 30], 0⟩ ⟨[], 0⟩
        2).nucleotides.getD 2 0 =
      (if 2 < 2 then
        ((⟨[1, 2, 3], 0⟩ : Genom Nat Nat).nucleotides.getD 2 0 +
          (⟨[10, 20, 30], 0⟩ : Genom Nat Nat).nucleotides.getD 2 0) / 2
      else
        ((⟨[10, 20, 30], 0⟩ : Genom Nat Nat).nucleotides.getD 2 0 +
          (⟨[1, 2, 3], 0⟩ : Genom Nat Nat).nucleotides.getD 2 0) / 2) :=
  ⟨(crossover_pointwise (fun a b => (a + b) / 2) 0 ⟨[1, 2, 3], 0⟩
      ⟨[10, 20, 30], 0⟩ ⟨[], 0⟩ 2 (by decide) (by decide)).1,
    (crossover_pointwise (fun a b => (a + b) / 2) 0 ⟨[1, 2, 3], 0⟩
      ⟨[10, 20, 30], 0⟩ ⟨[], 0⟩ 2 (by decide) (by decide)).2 1 (by decide),
    (crossover_pointwise (fun a b => (a + b) / 2) 0 ⟨[1, 2, 3], 0⟩
      ⟨[10, 20, 30], 0⟩ ⟨[], 0⟩ 2 (by decide) (by decide)).2 2 (by decide)⟩

/-! ## C7 — crossover boundary consistency -/

/-- C7: for equal-length parents, `crossover_inplace(a, b, out, 0)` and
`crossover_inplace(b, a, out, len)` produce identical results: with point
`0` every position uses the swapped order `(b[i], a[i])`, and with point
`len` and the parents exchanged every position uses `(b[i], a[i])` too. -/
theorem crossover_boundary_consistent (ncross : α → α → α) (dflt : α)
    (a b c : Genom α σ)
    (hlen : a.nucleotides.length = b.nucleotides.length) :
    Genom.crossover_inplace ncross dflt a b c 0 =
      Genom.crossover_inplace ncross dflt b a c b.nucleotides.length := by
  rw [Genom.crossover_inplace, Genom.crossover_inplace]
  congr 1
  rw [crossoverNucs, crossoverNucs, hlen]
  refine List.map_congr_left fun i hi => ?_
  rw [List.mem_range] at hi
  simp [hi, Nat.not_lt_zero]

/-- C7 witness: parents `[1, 2]` and `[5, 9]` with the (non-commutative)
nucleotide combine `fun a b => a`. -/
theorem crossover_boundary_consistent_witness :
    Genom.crossover_inplace (fun a _ => a) 0
        (⟨[1, 2], 0⟩ : Genom Nat Nat) ⟨[5, 9], 0⟩ ⟨[], 0⟩ 0 =
      Genom.crossover_inplace (fun a _ => a) 0
        (⟨[5, 9], 0⟩ : Genom Nat Nat) ⟨[1, 2], 0⟩ ⟨[], 0⟩
        (⟨[5, 9], 0⟩ : Genom Nat Nat).nucleotides.length :=
  crossover_boundary_consistent (fun a _ => a) 0 ⟨[1, 2], 0⟩ ⟨[5, 9], 0⟩ ⟨[], 0⟩
    (by decide)

/-! ## C8 — shift -/

/-- C8: `Genom::shift(n)` (for `n ≤ len`, as `std::rotate` requires) leaves
the scorer untouched and rotates left: position `i` receives what was at
`(i + n) mod len`; and applying `shift(1)` `len` times returns the
nucleotide sequence to its original ordering. -/
theorem shift_correctness (g : Genom α σ) (n : Nat) (dflt : α)
    (hn : n ≤ g.nucleotides.length) (h1 : 1 ≤ g.nucleotides.length) :
    (g.shift n).scorer = g.scorer
  ∧ (∀ i, i < g.nucleotides.length →
      (g.shift n).nucleotides.getD i dflt =
        g.nucleotides.getD ((i + n) % g.nucleotides.length) dflt)
  ∧ (fun x : Genom α σ => x.shift 1)^[g.nucleotides.length] g = g := by
  refine ⟨rfl, fun i hi => ?_, ?_⟩
  · rw [shift_nucleotides_eq_rotate g n hn]
    have hi1 : i < (g.nucleotides.rotate n).length := by rwa [List.length_rotate]
    have hi2 : (i + n) % g.nucleotides.length < g.nucleotides.length :=
      Nat.mod_lt _ (Nat.lt_of_lt_of_le Nat.zero_lt_one h1)
    rw [List.getD_eq_getElem _ _ hi1, List.getD_eq_getElem _ _ hi2,
      List.getElem_rotate]
  · rw [shift_one_iterate g h1 g.nucleotides.length, List.rotate_length]

/-- C8 witness: `g = [1, 2, 3]`, `n = 1`, instantiated at index `0`. -/
theorem shift_correctness_witness :
    ((⟨[1, 2, 3], 0⟩ : Genom Nat Nat).shift 1).scorer =
      (⟨[1, 2, 3], 0⟩ : Genom Nat Nat).scorer
  ∧ ((⟨[1, 2, 3], 0⟩ : Genom Nat Nat).shift 1).nucleotides.getD 0 0 =
      (⟨[1, 2, 3], 0⟩ : Genom Nat Nat).nucleotides.getD
        ((0 + 1) % (⟨[1, 2, 3], 0⟩ : Genom Nat Nat).nucleotides.length) 0
  ∧ (fun x : Genom Nat Nat => x.shift 1)^[
      (⟨[1, 2, 3], 0⟩ : Genom Nat Nat).nucleotides.length]
      (⟨[1, 2, 3], 0⟩ : Genom Nat Nat) = ⟨[1, 2, 3], 0⟩ :=
  ⟨(shift_correctness ⟨[1, 2, 3], 0⟩ 1 0 (by decide) (by decide)).1,
    (shift_correctness ⟨[1, 2, 3], 0⟩ 1 0 (by decide) (by decide)).2.1 0
      (by decide),
    (shift_correctness ⟨[1, 2, 3], 0⟩ 1 0 (by decide) (by decide)).2.2⟩

/-! ## C1 — simulate sorts descending, best is the maximum -/

theorem simulate_genoms_pairwise (sc : σ → ℚ) (simFn : Genom α σ → Genom α σ)
    (p : GenePool α σ ρ) :
    List.Pairwise (fun a b : Genom α σ => sc b.scorer ≤ sc a.scorer)
      (GenePool.simulate sc simFn p).genoms := by
  have htrans : ∀ a b c : Genom α σ, scoreGE sc a b = true →
      scoreGE sc b c = true → scoreGE sc a c = true := by
    intro a b c hab hbc
    simp only [scoreGE, decide_eq_true_eq] at *
    exact le_trans hbc hab
  have htotal : ∀ a b : Genom α σ, (scoreGE sc a b || scoreGE sc b a) = true := by
    intro a b
    simp only [scoreGE, Bool.or_eq_true, decide_eq_true_eq]
    exact le_total (sc b.scorer) (sc a.scorer)
  have h := List.sorted_mergeSort htrans htotal (p.genoms.map simFn)
  exact h.imp fun hab => by
    simpa only [scoreGE, decide_eq_true_eq] using hab

/-- C1: after `GenePool::simulate` (for every population and every
simulator) the population is sorted in descending order of score — for all
adjacent positions, `score(genoms[i]) >= score(genoms[i+1])` — and `best()`
returns the first element, which scores at least as high as every member of
the population. -/
theorem simulate_sorted_best (sc : σ → ℚ) (simFn : Genom α σ → Genom α σ)
    (p : GenePool α σ ρ) (defG : Genom α σ) :
    (∀ i, i + 1 < (GenePool.simulate sc simFn p).genoms.length →
      sc ((GenePool.simulate sc simFn p).genoms.getD (i + 1) defG).scorer ≤
        sc ((GenePool.simulate sc simFn p).genoms.getD i defG).scorer)
  ∧ (GenePool.simulate sc simFn p).best =
      (GenePool.simulate sc simFn p).genoms.head?
  ∧ (∀ b, (GenePool.simulate sc simFn p).best = some b →
      ∀ g ∈ (GenePool.simulate sc simFn p).genoms, sc g.scorer ≤ sc b.scorer) := by
  have hpair := simulate_genoms_pairwise sc simFn p
  refine ⟨fun i hi => ?_, rfl, fun b hb g hg => ?_⟩
  · have hi' : i < (GenePool.simulate sc simFn p).genoms.length :=
      Nat.lt_of_succ_lt hi
    rw [List.getD_eq_getElem _ _ hi, List.getD_eq_getElem _ _ hi']
    exact (List.pairwise_iff_getElem.mp hpair) i (i + 1) hi' hi (Nat.lt_succ_self i)
  · rcases hc : (GenePool.simulate sc simFn p).genoms with _ | ⟨x, t⟩
    · rw [GenePool.best, hc] at hb
      exact absurd hb (by simp)
    · rw [GenePool.best, hc] at hb
      simp only [List.head?_cons, Option.some.injEq] at hb
      rw [hc] at hg hpair
      rcases List.mem_cons.mp hg with hgx | hgt
      · rw [hgx, hb]
      · exact hb ▸ (List.pairwise_cons.mp hpair).1 g hgt

/-- C1 witness: the two-member population `poolPair`; the sort conjunct
instantiated at the adjacent pair `(0, 1)` and the best-is-maximum conjunct
at the head of the sorted population. -/
theorem simulate_sorted_best_witness :
    ((GenePool.simulate (fun s : ℚ => s) simPair poolPair).genoms.getD 1
        ⟨[], Rat.mk' 0 1⟩).scorer ≤
      ((GenePool.simulate (fun s : ℚ => s) simPair poolPair).genoms.getD 0
        ⟨[], Rat.mk' 0 1⟩).scorer
  ∧ (GenePool.simulate (fun s : ℚ => s) simPair poolPair).best =
      (GenePool.simulate (fun s : ℚ => s) simPair poolPair).genoms.head?
  ∧ ((GenePool.simulate (fun s : ℚ => s) simPair poolPair).genoms.getD 0
        ⟨[], Rat.mk' 0 1⟩).scorer ≤
      ((GenePool.simulate (fun s : ℚ => s) simPair poolPair).genoms.getD 0
        ⟨[], Rat.mk' 0 1⟩).scorer := by
  have h := simulate_sorted_best (fun s : ℚ => s) simPair poolPair
    ⟨[], Rat.mk' 0 1⟩
  have hlen : (GenePool.simulate (fun s : ℚ => s) simPair poolPair).genoms.length =
      2 := by
    show ((poolPair.genoms.map simPair).mergeSort
      (scoreGE fun s : ℚ => s)).length = 2
    rw [List.length_mergeSort, List.length_map]
    rfl
  have h0 : 0 < (GenePool.simulate (fun s : ℚ => s) simPair poolPair).genoms.length := by
    omega
  have hb : (GenePool.simulate (fun s : ℚ => s) simPair poolPair).best =
      some ((GenePool.simulate (fun s : ℚ => s) simPair poolPair).genoms.getD 0
        ⟨[], Rat.mk' 0 1⟩) := by
    rw [h.2.1, List.head?_eq_getElem?, List.getElem?_eq_getElem h0,
      List.getD_eq_getElem _ _ h0]
  have hmem : (GenePool.simulate (fun s : ℚ => s) simPair poolPair).genoms.getD 0
      ⟨[], Rat.mk' 0 1⟩ ∈
      (GenePool.simulate (fun s : ℚ => s) simPair poolPair).genoms := by
    rw [List.getD_eq_getElem _ _ h0]
    exact List.getElem_mem h0
  exact ⟨h.1 0 (by omega), h.2.1, h.2.2 _ hb _ hmem⟩

/-! ## C10 — deterministic construction -/

/-- C10: `GenePool` construction is deterministic.  The engine is seeded from
the constant `defaultEngineFirstOutput` — the first output of a
default-constructed `std::default_random_engine` — and not from the ambient
wall-clock or hardware entropy, so two pools constructed with the same
(population size, genom length, elite fraction) and the same engine type are
identical whatever the environment, and the initial population does not even
depend on the elite fraction. -/
theorem construct_deterministic (nrand : ρ → α × ρ) (defS : σ)
    (initRng : Nat → ρ) (env₁ env₂ : Environment) (N L : Nat) (f f' : ℚ) :
    GenePool.construct (α := α) nrand defS initRng env₁ N L f =
      GenePool.construct nrand defS initRng env₂ N L f
  ∧ (GenePool.construct (α := α) nrand defS initRng env₁ N L f).genoms =
      (GenePool.construct nrand defS initRng env₂ N L f').genoms :=
  ⟨rfl, rfl⟩

/-! ## C9 — the retain field never influences behaviour -/

/-- C9: noninterference of `retain`.  For two pool states identical in every
component except `retain`, the operations `simulate`, `select`, `shift`,
`reset`, `best` and `generations` produce identical results and successor
states that again differ at most in `retain` (which each operation carries
through unchanged). -/
theorem retain_noninterference (sc : σ → ℚ) (simFn : Genom α σ → Genom α σ)
    (ncross : α → α → α) (dflt : α) (nmut : α → ρ → α × ρ)
    (nextNat : ρ → Nat × ρ) (defG : Genom α σ)
    (sh1 sh2 sh3 : List Nat → ρ → List Nat × ρ)
    (p : GenePool α σ ρ) (r' : Nat) (n : Nat) :
    GenePool.simulate sc simFn { p with retain := r' } =
      { GenePool.simulate sc simFn p with retain := r' }
  ∧ GenePool.select ncross dflt nmut nextNat defG sh1 sh2 sh3
        { p with retain := r' } =
      (GenePool.select ncross dflt nmut nextNat defG sh1 sh2 sh3 p).map
        (fun q => { q with retain := r' })
  ∧ GenePool.shift { p with retain := r' } n =
      { GenePool.shift p n with retain := r' }
  ∧ GenePool.reset { p with retain := r' } = { GenePool.reset p with retain := r' }
  ∧ GenePool.best { p with retain := r' } = GenePool.best p
  ∧ GenePool.generations { p with retain := r' } = GenePool.generations p := by
  refine ⟨rfl, ?_, rfl, rfl, rfl, rfl⟩
  rw [GenePool.select, GenePool.select]
  cases selectCore ncross dflt nmut nextNat defG sh1 sh2 sh3 p.take p.n_genoms
    p.genoms p.rng p.shuffle_indices p.next_generation <;> rfl


/-! ## C2 — mutation index can be out of range (code bug) -/

/-- C2 is FALSE of the code: in `GenePool::select` the mutation index is
drawn from the same `uniform_int_distribution(0, genom_len)` — inclusive
upper bound — that serves the crossover point (src/ga.h:211, 276), so a
draw equal to `genom_len` reaches `Genom::mutate`, whose `nucleotides[n]`
then reads one past the last valid nucleotide.  Here: population 2, genom
length 1, draws `0, 0, 1, 0` (all `≤ distr_hi`, so each is a legal output
of the distribution); the first mutation draw is `1 = genom_len` and
`select` faults (returns `none` in the embedding, undefined behaviour in
the C++). -/
theorem select_mutation_index_out_of_range :
    ([0, 0, 1, 0].all fun d => decide (d ≤ poolTwo.distr_hi)) = true
  ∧ poolTwo.rng = [0, 0, 1, 0]
  ∧ GenePool.select ncrossAvg 0 nmutInc streamNext defG0 shId shId shId
      poolTwo = none :=
  ⟨by decide, by decide, by decide⟩

/-! ## C3 — the post-copy mating pool -/


/-- C3 COUNTEREXAMPLE (to "in every call, including every call after the
first"): the first `select` on the freshly constructed `poolFour`
(`N = 4`, `take = 1`, `half = 2`; identity shuffle outcomes, draws all 0)
leaves the index array `[0, 1, 0, 1]` — no longer a permutation.  In the
second call, `[0, 1, 1]` is a permutation of the shuffled segment
`[1, 0, 1]`, hence a legal `std::shuffle` outcome, and after the first-half
duplication the index array is `[0, 0, 0, 0]`: it contains 1 distinct
population index, not `half = 2`. -/
theorem select_second_call_not_half_distinct :
    Option.map GenePool.shuffle_indices
      (GenePool.select ncrossAvg 0 nmutInc streamNext defG0 shId shId shId
        poolFour) = some [0, 1, 0, 1]
  ∧ Option.map GenePool.take
      (GenePool.select ncrossAvg 0 nmutInc streamNext defG0 shId shId shId
        poolFour) = some 1
  ∧ Option.map GenePool.n_genoms
      (GenePool.select ncrossAvg 0 nmutInc streamNext defG0 shId shId shId
        poolFour) = some 4
  ∧ ([0, 1, 1] : List Nat).Perm (([0, 1, 0, 1] : List Nat).drop 1)
  ∧ copyHalf (4 / 2) (shuffleTail 1 [0, 1, 0, 1] [0, 1, 1]) = [0, 0, 0, 0]
  ∧ ¬ (copyHalf (4 / 2) (shuffleTail 1 [0, 1, 0, 1] [0, 1, 1])).toFinset.card =
      4 / 2 :=
  ⟨by decide, by decide, by decide, by decide, by decide, by decide⟩

/-- C3 (amended): in the FIRST call to `select` after construction — where
the index array is still the identity permutation — once slots `[half, N)`
have been overwritten with the copy of slots `[0, half)` (even `N`,
`take ≤ N / 2`, and the shuffled segment `seg1` a permutation of the old
tail, as `std::shuffle` guarantees), the index array contains exactly
`half` distinct population indices, all of them valid positions `< N`,
among them every elite index `0 .. take - 1`.  (After the first call the
array is no longer a permutation and a later shuffle can duplicate an
index into the first half — see the counterexample.) -/
theorem select_first_call_half_distinct (nrand : ρ → α × ρ) (defS : σ)
    (initRng : Nat → ρ) (env : Environment) (N L : Nat) (f : ℚ)
    (seg1 : List Nat)
    (hN : N / 2 + N / 2 = N)
    (htake : (GenePool.construct (α := α) nrand defS initRng env N L f).take ≤ N / 2)
    (hperm : seg1.Perm
      ((GenePool.construct (α := α) nrand defS initRng env N L f).shuffle_indices.drop
        (GenePool.construct (α := α) nrand defS initRng env N L f).take)) :
    (copyHalf (N / 2)
        (shuffleTail (GenePool.construct (α := α) nrand defS initRng env N L f).take
          (GenePool.construct (α := α) nrand defS initRng env N L f).shuffle_indices
          seg1)).toFinset.card = N / 2
  ∧ (∀ v ∈ copyHalf (N / 2)
        (shuffleTail (GenePool.construct (α := α) nrand defS initRng env N L f).take
          (GenePool.construct (α := α) nrand defS initRng env N L f).shuffle_indices
          seg1), v < N)
  ∧ (∀ e, e < (GenePool.construct (α := α) nrand defS initRng env N L f).take →
      e ∈ copyHalf (N / 2)
        (shuffleTail (GenePool.construct (α := α) nrand defS initRng env N L f).take
          (GenePool.construct (α := α) nrand defS initRng env N L f).shuffle_indices
          seg1)) := by
  set p := GenePool.construct (α := α) nrand defS initRng env N L f with hp
  have hsi : p.shuffle_indices = List.range N := rfl
  rw [hsi] at hperm ⊢
  have htN : p.take ≤ N := le_trans htake (by omega)
  have htr : List.range p.take = (List.range N).take p.take := by
    rw [List.take_range, Nat.min_eq_left htN]
  have hidx1_eq : shuffleTail p.take (List.range N) seg1 =
      List.range p.take ++ seg1 := by
    rw [shuffleTail, ← htr]
  have hidx1_perm : (shuffleTail p.take (List.range N) seg1).Perm (List.range N) := by
    rw [hidx1_eq, htr]
    have h2 := List.Perm.append_left ((List.range N).take p.take) hperm
    rw [List.take_append_drop] at h2
    exact h2
  have hlen1 : (shuffleTail p.take (List.range N) seg1).length = N := by
    rw [hidx1_perm.length_eq, List.length_range]
  have hnodup1 : (shuffleTail p.take (List.range N) seg1).Nodup :=
    hidx1_perm.nodup_iff.mpr (List.nodup_range N)
  have hA_len : ((shuffleTail p.take (List.range N) seg1).take (N / 2)).length =
      N / 2 := by
    rw [List.length_take, hlen1, Nat.min_eq_left (by omega)]
  have hA_nodup : ((shuffleTail p.take (List.range N) seg1).take (N / 2)).Nodup :=
    List.Nodup.sublist (List.take_sublist _ _) hnodup1
  have hdrop_nil : (shuffleTail p.take (List.range N) seg1).drop (N / 2 + N / 2) =
      [] :=
    List.drop_eq_nil_of_le (by rw [hlen1]; omega)
  have hidx2 : copyHalf (N / 2) (shuffleTail p.take (List.range N) seg1) =
      (shuffleTail p.take (List.range N) seg1).take (N / 2) ++
        (shuffleTail p.take (List.range N) seg1).take (N / 2) := by
    rw [copyHalf, hdrop_nil, List.append_nil]
  refine ⟨?_, ?_, ?_⟩
  · rw [hidx2, List.toFinset_append, Finset.union_self,
      List.toFinset_card_of_nodup hA_nodup, hA_len]
  · intro v hv
    rw [hidx2] at hv
    have hvA : v ∈ (shuffleTail p.take (List.range N) seg1).take (N / 2) := by
      rcases List.mem_append.mp hv with h | h <;> exact h
    exact List.mem_range.mp (hidx1_perm.mem_iff.mp (List.mem_of_mem_take hvA))
  · intro e he
    have heA : e ∈ (shuffleTail p.take (List.range N) seg1).take (N / 2) := by
      rw [hidx1_eq, List.take_append_eq_append_take, List.length_range,
        List.take_of_length_le (by rw [List.length_range]; omega)]
      exact List.mem_append_left _ (List.mem_range.mpr he)
    rw [hidx2]
    exact List.mem_append_left _ heA

/-- C3 witness: the first call on `GenePool{4, 1, 0.25}` (the pool
`poolFour`) with the shuffle outcome `[2, 1, 3]` for the segment
`[1, 2, 3]`; the validity and membership conjuncts instantiated at the
member `0` and the elite index `0`. -/
theorem select_first_call_half_distinct_witness :
    (copyHalf (4 / 2)
        (shuffleTail poolFour.take poolFour.shuffle_indices
          [2, 1, 3])).toFinset.card = 4 / 2
  ∧ (0 : Nat) < 4
  ∧ (0 : Nat) ∈ copyHalf (4 / 2)
      (shuffleTail poolFour.take poolFour.shuffle_indices [2, 1, 3]) :=
  ⟨(select_first_call_half_distinct nrandConst 0 (fun _ => ([] : List Nat))
      ⟨0, 0⟩ 4 1 (Rat.mk' 1 4) [2, 1, 3] (by decide) (by decide)
      (by decide)).1,
    (select_first_call_half_distinct nrandConst 0 (fun _ => ([] : List Nat))
      ⟨0, 0⟩ 4 1 (Rat.mk' 1 4) [2, 1, 3] (by decide) (by decide)
      (by decide)).2.1 0 (by decide),
    (select_first_call_half_distinct nrandConst 0 (fun _ => ([] : List Nat))
      ⟨0, 0⟩ 4 1 (Rat.mk' 1 4) [2, 1, 3] (by decide) (by decide)
      (by decide)).2.2 0 (by decide)⟩

/-! ## C4 — every elite member is a crossover parent -/

theorem getD_append_lt (l s : List Nat) (e d : Nat) (he : e < l.length) :
    (l ++ s).getD e d = l.getD e d := by
  have he' : e < (l ++ s).length := by rw [List.length_append]; omega
  rw [List.getD_eq_getElem _ _ he', List.getD_eq_getElem _ _ he,
    List.getElem_append_left he]

theorem getD_take_lt (l : List Nat) (k e d : Nat) (he : e < k)
    (hk : e < l.length) :
    (l.take k).getD e d = l.getD e d := by
  have h1 : e < (l.take k).length := by rw [List.length_take]; omega
  rw [List.getD_eq_getElem _ _ h1, List.getD_eq_getElem _ _ hk,
    List.getElem_take]

theorem getD_shuffleTail_lt (k : Nat) (idx seg : List Nat) (e d : Nat)
    (he : e < k) (hk : k ≤ idx.length) :
    (shuffleTail k idx seg).getD e d = idx.getD e d := by
  rw [shuffleTail, getD_append_lt _ _ _ _ (by rw [List.length_take]; omega),
    getD_take_lt _ _ _ _ he (by omega)]

theorem getD_copyHalf_lt (half : Nat) (idx : List Nat) (e d : Nat)
    (he : e < half) (hh : half ≤ idx.length) :
    (copyHalf half idx).getD e d = idx.getD e d := by
  rw [copyHalf, List.append_assoc,
    getD_append_lt _ _ _ _ (by rw [List.length_take]; omega),
    getD_take_lt _ _ _ _ he (by omega)]

theorem shuffleTail_length (k : Nat) (idx seg : List Nat) (hk : k ≤ idx.length)
    (hs : seg.length = idx.length - k) :
    (shuffleTail k idx seg).length = idx.length := by
  rw [shuffleTail, List.length_append, List.length_take, hs]
  omega

theorem shuffleTail_length_ge (k : Nat) (idx seg : List Nat)
    (hk : k ≤ idx.length) :
    k ≤ (shuffleTail k idx seg).length := by
  rw [shuffleTail, List.length_append, List.length_take]
  omega

theorem copyHalf_length (half : Nat) (idx : List Nat)
    (hh : half + half ≤ idx.length) :
    (copyHalf half idx).length = idx.length := by
  rw [copyHalf, List.length_append, List.length_append, List.length_take,
    List.length_drop]
  omega

/-- When `selectCore` succeeds, the new index array is the third-shuffle
stage `shuffleTail half (shuffleTail half (copyHalf half (shuffleTail take
idx seg1)) seg2) seg3`, where each `segᵢ` is the outcome of the
corresponding `std::shuffle` call — a permutation of the segment it
shuffled. -/
theorem selectCore_some_shuffle_indices (ncross : α → α → α) (dflt : α)
    (nmut : α → ρ → α × ρ) (nextNat : ρ → Nat × ρ) (defG : Genom α σ)
    (sh1 sh2 sh3 : List Nat → ρ → List Nat × ρ)
    (hsh1 : ∀ l r, ((sh1 l r).1).Perm l)
    (hsh2 : ∀ l r, ((sh2 l r).1).Perm l)
    (hsh3 : ∀ l r, ((sh3 l r).1).Perm l)
    (t N : Nat) (gs : List (Genom α σ)) (r : ρ) (idx : List Nat)
    (ng : List (Genom α σ))
    (m : List (Genom α σ) × ρ × List Nat × List (Genom α σ))
    (h : selectCore ncross dflt nmut nextNat defG sh1 sh2 sh3 t N gs r idx ng =
      some m) :
    ∃ seg1 seg2 seg3 : List Nat,
      seg1.Perm (idx.drop t)
    ∧ seg2.Perm ((copyHalf (N / 2) (shuffleTail t idx seg1)).drop (N / 2))
    ∧ seg3.Perm ((shuffleTail (N / 2)
        (copyHalf (N / 2) (shuffleTail t idx seg1)) seg2).drop (N / 2))
    ∧ m.2.2.1 = shuffleTail (N / 2)
        (shuffleTail (N / 2) (copyHalf (N / 2) (shuffleTail t idx seg1)) seg2)
        seg3 := by
  simp only [selectCore] at h
  split at h
  · exact absurd h (by simp)
  · simp only [Option.some.injEq] at h
    rw [← h]
    refine ⟨_, _, _, ?_, ?_, ?_, rfl⟩
    · exact hsh1 _ _
    · exact hsh2 _ _
    · exact hsh3 _ _


theorem copyHalf_length_ge (half : Nat) (idx : List Nat)
    (hh : half ≤ idx.length) :
    half ≤ (copyHalf half idx).length := by
  rw [copyHalf, List.length_append, List.length_append, List.length_take]
  omega

theorem mem_take_of_getD (l : List Nat) (half e : Nat) (he : e < half)
    (hl : half ≤ l.length) (hv : l.getD e 0 = e) : e ∈ l.take half := by
  have h1 : e < (l.take half).length := by rw [List.length_take]; omega
  have h2 : (l.take half)[e] = e := by
    rw [List.getElem_take, ← List.getD_eq_getElem l 0 (by omega)]
    exact hv
  exact h2 ▸ List.getElem_mem h1

theorem eliteIdent_stage3 (t half : Nat) (idx seg1 seg2 : List Nat)
    (ht : t ≤ half) (hidx : t ≤ idx.length)
    (hl1 : half ≤ (shuffleTail t idx seg1).length)
    (helite : eliteIdent t idx) (e : Nat) (he : e < t) :
    (shuffleTail half (copyHalf half (shuffleTail t idx seg1)) seg2).getD e 0 =
      e := by
  rw [getD_shuffleTail_lt half _ seg2 e 0 (lt_of_lt_of_le he ht)
      (copyHalf_length_ge half _ hl1),
    getD_copyHalf_lt half _ e 0 (lt_of_lt_of_le he ht) hl1,
    getD_shuffleTail_lt t idx seg1 e 0 he hidx]
  exact helite e he

theorem eliteIdent_stage4 (t half : Nat) (idx seg1 seg2 seg3 : List Nat)
    (ht : t ≤ half) (hidx : t ≤ idx.length)
    (hl1 : half ≤ (shuffleTail t idx seg1).length)
    (helite : eliteIdent t idx) (e : Nat) (he : e < t) :
    (shuffleTail half
        (shuffleTail half (copyHalf half (shuffleTail t idx seg1)) seg2)
        seg3).getD e 0 = e := by
  rw [getD_shuffleTail_lt half _ seg3 e 0 (lt_of_lt_of_le he ht)
      (shuffleTail_length_ge half _ seg2 (copyHalf_length_ge half _ hl1))]
  exact eliteIdent_stage3 t half idx seg1 seg2 ht hidx hl1 helite e he

/-- C4: every elite member is used as a crossover parent in every `select`.
Conjunct (i): construction leaves the index array with the identity prefix
`shuffle_indices[e] = e` for `e < take` (src/ga.h:217-219), which — the
population being sorted descending after `simulate` — marks the top-`take`
performers.  Conjunct (ii): `select` never writes positions `< take`
(shuffles start at `take` resp. `half`, the copy writes from `half` on), so
the prefix and the array length survive every call.  Conjunct (iii): from
any state with the identity prefix, with `t ≤ half` and an even-length
array, the stage arrays `idx3 = shuffleTail half (copyHalf half
(shuffleTail take idx seg1)) seg2` (read by the first crossover loop,
src/ga.h:256-260) and `idx4 = shuffleTail half idx3 seg3` (read by the
second, src/ga.h:266-270) hold value `e` at position `e` for every elite
index `e < take`; entry `i` of these arrays is exactly the first-parent
index `genoms[shuffle_indices[i]]` of crossover call `i` (see `crossLoop`),
and since `e < take ≤ half`, call `e` runs and uses `genoms[e]` — so `e`
appears among the first-parent indices (`.take half`) of both loops. -/
theorem select_elite_first_parent (ncross : α → α → α) (dflt : α)
    (nmut : α → ρ → α × ρ) (nextNat : ρ → Nat × ρ) (defG : Genom α σ)
    (sh1 sh2 sh3 : List Nat → ρ → List Nat × ρ)
    (hsh1 : ∀ l r, ((sh1 l r).1).Perm l)
    (hsh2 : ∀ l r, ((sh2 l r).1).Perm l)
    (hsh3 : ∀ l r, ((sh3 l r).1).Perm l) :
    (∀ (nrand : ρ → α × ρ) (defS : σ) (initRng : Nat → ρ) (env : Environment)
      (N L : Nat) (f : ℚ),
      (GenePool.construct (α := α) nrand defS initRng env N L f).take ≤ N →
      eliteIdent (GenePool.construct (α := α) nrand defS initRng env N L f).take
        (GenePool.construct (α := α) nrand defS initRng env N L f).shuffle_indices)
  ∧ (∀ p q : GenePool α σ ρ,
      p.shuffle_indices.length = p.n_genoms →
      p.take ≤ p.n_genoms / 2 →
      eliteIdent p.take p.shuffle_indices →
      GenePool.select ncross dflt nmut nextNat defG sh1 sh2 sh3 p = some q →
      q.take = p.take ∧ q.n_genoms = p.n_genoms ∧
        q.shuffle_indices.length = q.n_genoms ∧
        eliteIdent q.take q.shuffle_indices)
  ∧ (∀ (t half : Nat) (idx seg1 seg2 seg3 : List Nat),
      0 < t → t ≤ half → half + half ≤ idx.length →
      seg1.length = idx.length - t →
      eliteIdent t idx →
      ∀ e, e < t →
        (shuffleTail half (copyHalf half (shuffleTail t idx seg1)) seg2).getD
          e 0 = e
      ∧ e ∈ (shuffleTail half (copyHalf half (shuffleTail t idx seg1))
          seg2).take half
      ∧ (shuffleTail half
          (shuffleTail half (copyHalf half (shuffleTail t idx seg1)) seg2)
          seg3).getD e 0 = e
      ∧ e ∈ (shuffleTail half
          (shuffleTail half (copyHalf half (shuffleTail t idx seg1)) seg2)
          seg3).take half) := by
  refine ⟨?_, ?_, ?_⟩
  · intro nrand defS initRng env N L f htN e he
    show (List.range N).getD e 0 = e
    rw [List.getD_eq_getElem _ _ (by rw [List.length_range]; omega),
      List.getElem_range]
  · intro p q hlen htk helite hsel
    rw [GenePool.select] at hsel
    cases hc : selectCore ncross dflt nmut nextNat defG sh1 sh2 sh3 p.take
        p.n_genoms p.genoms p.rng p.shuffle_indices p.next_generation with
    | none => rw [hc] at hsel; exact absurd hsel (by simp)
    | some m =>
      rw [hc] at hsel
      simp only [Option.map_some', Option.some.injEq] at hsel
      obtain ⟨seg1, seg2, seg3, hp1, hp2, hp3, hm⟩ :=
        selectCore_some_shuffle_indices ncross dflt nmut nextNat defG
          sh1 sh2 sh3 hsh1 hsh2 hsh3 p.take p.n_genoms p.genoms p.rng
          p.shuffle_indices p.next_generation m hc
      have htL : p.take ≤ p.shuffle_indices.length := by rw [hlen]; omega
      have hs1 : seg1.length = p.shuffle_indices.length - p.take := by
        rw [hp1.length_eq, List.length_drop]
      have hlen1 : (shuffleTail p.take p.shuffle_indices seg1).length =
          p.shuffle_indices.length :=
        shuffleTail_length p.take p.shuffle_indices seg1 htL hs1
      have hhalfL : p.n_genoms / 2 ≤ p.shuffle_indices.length := by
        rw [hlen]; omega
      have hl1 : p.n_genoms / 2 ≤
          (shuffleTail p.take p.shuffle_indices seg1).length := by
        rw [hlen1]; exact hhalfL
      have hlen2 : (copyHalf (p.n_genoms / 2)
          (shuffleTail p.take p.shuffle_indices seg1)).length =
          p.shuffle_indices.length := by
        rw [copyHalf_length _ _ (by rw [hlen1, hlen]; omega), hlen1]
      have hs2 : seg2.length = (copyHalf (p.n_genoms / 2)
          (shuffleTail p.take p.shuffle_indices seg1)).length -
          p.n_genoms / 2 := by
        rw [hp2.length_eq, List.length_drop]
      have hlen3 : (shuffleTail (p.n_genoms / 2)
          (copyHalf (p.n_genoms / 2)
            (shuffleTail p.take p.shuffle_indices seg1)) seg2).length =
          p.shuffle_indices.length := by
        rw [shuffleTail_length _ _ _ (by rw [hlen2]; exact hhalfL) hs2, hlen2]
      have hs3 : seg3.length = (shuffleTail (p.n_genoms / 2)
          (copyHalf (p.n_genoms / 2)
            (shuffleTail p.take p.shuffle_indices seg1)) seg2).length -
          p.n_genoms / 2 := by
        rw [hp3.length_eq, List.length_drop]
      have hlen4 : m.2.2.1.length = p.shuffle_indices.length := by
        rw [hm, shuffleTail_length _ _ _ (by rw [hlen3]; exact hhalfL) hs3,
          hlen3]
      subst hsel
      refine ⟨rfl, rfl, ?_, ?_⟩
      · show m.2.2.1.length = p.n_genoms
        rw [hlen4, hlen]
      · intro e he
        show m.2.2.1.getD e 0 = e
        rw [hm]
        exact eliteIdent_stage4 p.take (p.n_genoms / 2) p.shuffle_indices
          seg1 seg2 seg3 htk htL hl1 helite e he
  · intro t half idx seg1 seg2 seg3 _ht0 ht hh hs1 helite e he
    have hidx : t ≤ idx.length := by omega
    have hl1 : half ≤ (shuffleTail t idx seg1).length := by
      rw [shuffleTail_length t idx seg1 hidx hs1]; omega
    have h3 := eliteIdent_stage3 t half idx seg1 seg2 ht hidx hl1 helite e he
    have h4 := eliteIdent_stage4 t half idx seg1 seg2 seg3 ht hidx hl1
      helite e he
    refine ⟨h3, ?_, h4, ?_⟩
    · exact mem_take_of_getD _ half e (lt_of_lt_of_le he ht)
        (shuffleTail_length_ge half _ seg2 (copyHalf_length_ge half _ hl1)) h3
    · exact mem_take_of_getD _ half e (lt_of_lt_of_le he ht)
        (shuffleTail_length_ge half _ seg3
          (shuffleTail_length_ge half _ seg2 (copyHalf_length_ge half _ hl1)))
        h4

/-- C4 witness: `t = 1`, `half = 2`, index array `[0, 1, 2, 3]`, shuffle
outcomes `[2, 1, 3]`, `[0, 1]`, `[1, 0]`, elite index `e = 0`. -/
theorem select_elite_first_parent_witness :
    (shuffleTail 2 (copyHalf 2 (shuffleTail 1 [0, 1, 2, 3] [2, 1, 3]))
      [0, 1]).getD 0 0 = 0
  ∧ (0 : Nat) ∈ (shuffleTail 2 (copyHalf 2 (shuffleTail 1 [0, 1, 2, 3] [2, 1, 3]))
      [0, 1]).take 2
  ∧ (shuffleTail 2
      (shuffleTail 2 (copyHalf 2 (shuffleTail 1 [0, 1, 2, 3] [2, 1, 3])) [0, 1])
      [1, 0]).getD 0 0 = 0
  ∧ (0 : Nat) ∈ (shuffleTail 2
      (shuffleTail 2 (copyHalf 2 (shuffleTail 1 [0, 1, 2, 3] [2, 1, 3])) [0, 1])
      [1, 0]).take 2 :=
  (select_elite_first_parent ncrossAvg 0 nmutInc streamNext defG0 shId shId shId
      (fun l _ => List.Perm.refl l) (fun l _ => List.Perm.refl l)
      (fun l _ => List.Perm.refl l)).2.2
    1 2 [0, 1, 2, 3] [2, 1, 3] [0, 1] [1, 0] (by decide) (by decide) (by decide)
    (by decide)
    (by
      intro e he
      have h0 : e = 0 := by omega
      subst h0
      rfl)
    0 (by decide)
